import Mathlib

/-!
Verification of the GaiaSentinel proof-import pipeline.

This file embeds the two scripts `tools/import_from_stamped.py` and
`tools/extract_proofs_from_pdfs.py` as executable Lean definitions and proves
the behavioural claims about them.  Filesystem-level capabilities that the
design treats as external collaborators (computing a SHA-256 digest of a
file's bytes, reading file size and modification time, guessing a MIME type,
extracting text from a PDF) are modelled as attributes carried by the file
records; everything with decision logic (receipt normalisation, matching,
version resolution, record assembly, run control flow) is translated from the
source.
-/

/-! ### Character and string utilities -/

/-- Python `str.lower` restricted to the characters this repository
manipulates: ASCII letters plus the accented letters that `slugify`'s
translation table mentions. -/
def pyLowerChar (c : Char) : Char :=
  match c with
  | 'À' => 'à' | 'Â' => 'â' | 'Ä' => 'ä'
  | 'É' => 'é' | 'È' => 'è' | 'Ê' => 'ê' | 'Ë' => 'ë'
  | 'Ï' => 'ï' | 'Î' => 'î'
  | 'Ô' => 'ô' | 'Ö' => 'ö'
  | 'Ù' => 'ù' | 'Û' => 'û' | 'Ü' => 'ü'
  | 'Ç' => 'ç'
  | _ => c.toLower

/-- Python `s.lower()` on a whole string. -/
def strLower (s : String) : String := ⟨s.data.map pyLowerChar⟩

/-- The accent-folding table of `slugify`
(`str.maketrans("àâäéèêëïîôöùûüç", "aaaeeeeiioouuuc")`). -/
def deaccentChar (c : Char) : Char :=
  match c with
  | 'à' | 'â' | 'ä' => 'a'
  | 'é' | 'è' | 'ê' | 'ë' => 'e'
  | 'ï' | 'î' => 'i'
  | 'ô' | 'ö' => 'o'
  | 'ù' | 'û' | 'ü' => 'u'
  | 'ç' => 'c'
  | _ => c

/-- A character kept verbatim by `slugify`: the class `[a-z0-9]`. -/
def isSlugChar (c : Char) : Bool := c.isDigit || ('a' ≤ c && c ≤ 'z')

/-- Collapse consecutive dashes into one; the boolean says whether the
previously emitted character was a dash.  Together with the preceding
character-wise mapping this realises `re.sub(r"[^a-z0-9]+", "-", s)`. -/
def squeezeDashAux : List Char → Bool → List Char
  | [], _ => []
  | c :: rest, prevDash =>
    if c = '-' then
      if prevDash then squeezeDashAux rest true
      else '-' :: squeezeDashAux rest true
    else c :: squeezeDashAux rest false

/-- Python `s.strip("-")` on a character list. -/
def stripDash (l : List Char) : List Char :=
  ((l.dropWhile (· = '-')).reverse.dropWhile (· = '-')).reverse

/-- `slugify` from `import_from_stamped.py`: lower-case, fold accents, replace
every maximal run of characters outside `[a-z0-9]` by a single dash, strip
leading and trailing dashes. -/
def slugify (s : String) : String :=
  let l := (strLower s).data.map deaccentChar
  ⟨stripDash (squeezeDashAux (l.map (fun c => if isSlugChar c then c else '-')) false)⟩

/-! ### Version-token parsing (`parse_version_from_name` and the folder-label
version strip of `collect_folder`) -/

/-- The separator class `[_\-\s]` of the version regexes (Python `\s`). -/
def isSepChar (c : Char) : Bool :=
  c = '_' || c = '-' || c = ' ' || c = '\t' || c = '\n' || c = '\r' ||
  c.toNat = 11 || c.toNat = 12

/-- Greedily take a run of decimal digits, returning it with the rest. -/
def takeDigits : List Char → List Char × List Char
  | [] => ([], [])
  | c :: rest =>
    if c.isDigit then
      let p := takeDigits rest
      (c :: p.1, p.2)
    else ([], c :: rest)

theorem takeDigits_snd_length (l : List Char) : (takeDigits l).2.length ≤ l.length := by
  induction l with
  | nil => simp [takeDigits]
  | cons c rest ih =>
    simp only [takeDigits]
    split
    · simpa using Nat.le_succ_of_le ih
    · simp

/-- Greedily take the `(?:\.\d+)*` part of a version token: zero or more
groups of a dot followed by at least one digit.  The fuel argument only
makes the recursion structural; every group consumes at least two
characters, so fuel equal to the list length (as `takeDotGroups` passes)
never runs out. -/
def takeDotGroupsF : Nat → List Char → List Char × List Char
  | 0, l => ([], l)
  | _ + 1, [] => ([], [])
  | fuel + 1, c :: rest =>
    if c = '.' then
      let p := takeDigits rest
      if p.1.isEmpty then ([], c :: rest)
      else
        let q := takeDotGroupsF fuel p.2
        ('.' :: (p.1 ++ q.1), q.2)
    else ([], c :: rest)

/-- The `(?:\.\d+)*` part of a version token. -/
def takeDotGroups (l : List Char) : List Char × List Char :=
  takeDotGroupsF l.length l

/-- Match the capture group `v\d+(?:\.\d+)*` (case-insensitive `v`) at the
head of the list, returning the matched token. -/
def matchVToken : List Char → Option (List Char)
  | [] => none
  | c :: rest =>
    if c = 'v' || c = 'V' then
      let p := takeDigits rest
      if p.1.isEmpty then none
      else
        let q := takeDotGroups p.2
        some (c :: (p.1 ++ q.1))
    else none

/-- Scan for the `[_\-\s]`-preceded alternative of
`(?:^|[_\-\s])(v\d+(?:\.\d+)*)` at later positions, leftmost first. -/
def searchVTokenRest : List Char → Option (List Char)
  | [] => none
  | c :: rest =>
    if isSepChar c then
      match matchVToken rest with
      | some t => some t
      | none => searchVTokenRest rest
    else searchVTokenRest rest

/-- `re.search(r"(?:^|[_\-\s])(v\d+(?:\.\d+)*)", name, re.I)`: the
start-of-string alternative at position 0, then separator-preceded tokens at
increasing positions. -/
def searchVToken (l : List Char) : Option (List Char) :=
  match matchVToken l with
  | some t => some t
  | none => searchVTokenRest l

/-- `parse_version_from_name`: the found token lower-cased with dots replaced
by dashes, or `none` when the name holds no version token. -/
def parse_version_from_name (name : String) : Option String :=
  (searchVToken name.data).map
    (fun t => ⟨t.map (fun c => let c2 := pyLowerChar c; if c2 = '.' then '-' else c2)⟩)

/-- Does `v\d+(?:\.\d+)*` match the whole list?  (The end-anchored version
suffix of a folder label.) -/
def fullVToken (l : List Char) : Bool :=
  match matchVToken l with
  | some t => t.length = l.length
  | none => false

/-- Scan for the leftmost separator followed by an end-anchored version token
and drop everything from the separator on; `accRev` is the reversed prefix
already passed over. -/
def svsAux : List Char → List Char → List Char
  | accRev, [] => accRev.reverse
  | accRev, c :: rest =>
    if isSepChar c && fullVToken rest then accRev.reverse
    else svsAux (c :: accRev) rest

/-- `re.sub(r"(?:^|[_\-\s])v\d+(?:\.\d+)*$", "", folder_label, re.I)` from
`collect_folder`: remove a trailing version token together with its leading
separator (or the whole label when it is a bare version token). -/
def stripVersionSuffix (s : String) : String :=
  if fullVToken s.data then "" else ⟨svsAux [] s.data⟩

/-! ### Timestamp normalisation (`norm_iso`)

`norm_iso` feeds `datetime.fromisoformat` (after replacing every `Z` by
`+00:00`) and re-renders the result with `strftime("%Y-%m-%dT%H:%M:%SZ")`,
returning `None` on any parse failure.  The parser below models the Python
standard library over the ISO subset
`YYYY-MM-DD[<sep>HH:MM[:SS[.f{1,6}]]][+HH:MM|-HH:MM]` with full calendar and
range validation; inputs outside this subset are rejected, matching the
`except`-to-`None` behaviour of the original. -/

/-- The datetime fields that `strftime("%Y-%m-%dT%H:%M:%SZ")` renders.  The
format reuses the parsed wall-clock fields verbatim (no zone conversion),
exactly as `strftime` does on the parsed `datetime` value. -/
structure DT where
  year : Nat
  month : Nat
  day : Nat
  hour : Nat
  minute : Nat
  second : Nat
deriving DecidableEq

/-- Value of a decimal digit character. -/
def digitVal (c : Char) : Option Nat :=
  if c.isDigit then some (c.toNat - 48) else none

/-- Read exactly two digits. -/
def parse2 : List Char → Option (Nat × List Char)
  | a :: b :: rest => do
    let x ← digitVal a
    let y ← digitVal b
    pure (10 * x + y, rest)
  | _ => none

/-- Read exactly four digits. -/
def parse4 : List Char → Option (Nat × List Char)
  | a :: b :: c :: d :: rest => do
    let x ← digitVal a
    let y ← digitVal b
    let z ← digitVal c
    let w ← digitVal d
    pure (1000 * x + 100 * y + 10 * z + w, rest)
  | _ => none

/-- Expect one given character. -/
def expectChar (c : Char) : List Char → Option (List Char)
  | d :: rest => if d = c then some rest else none
  | [] => none

/-- Gregorian month length, as validated by `datetime`. -/
def daysInMonth (y m : Nat) : Nat :=
  if m = 2 then
    if (y % 4 = 0 && y % 100 ≠ 0) || y % 400 = 0 then 29 else 28
  else if m = 4 || m = 6 || m = 9 || m = 11 then 30
  else 31

/-- Fractional seconds: a dot followed by one to six digits. -/
def parseFrac : List Char → Option (List Char)
  | c :: rest =>
    if c = '.' then
      let p := takeDigits rest
      if p.1.isEmpty || 6 < p.1.length then none else some p.2
    else none
  | [] => none

/-- UTC-offset suffix `±HH:MM`; the offset is validated and then discarded,
since `strftime` renders the wall-clock fields unchanged. -/
def parseOffset : List Char → Option Unit
  | [] => some ()
  | c :: rest =>
    if c = '+' || c = '-' then do
      let (oh, r1) ← parse2 rest
      let r2 ← expectChar ':' r1
      let (om, r3) ← parse2 r2
      if oh ≤ 23 && om ≤ 59 && r3.isEmpty then some () else none
    else none

/-- `HH:MM[:SS[.frac]]` followed by an optional offset. -/
def parseTimePart (l : List Char) : Option (Nat × Nat × Nat) := do
  let (h, r1) ← parse2 l
  let r2 ← expectChar ':' r1
  let (mi, r3) ← parse2 r2
  let (sec, r4) ←
    match r3 with
    | ':' :: r => do
      let (s, r5) ← parse2 r
      match r5 with
      | '.' :: _ => do
        let r6 ← parseFrac r5
        pure (s, r6)
      | _ => pure (s, r5)
    | _ => pure (0, r3)
  let () ← parseOffset r4
  if h ≤ 23 && mi ≤ 59 && sec ≤ 59 then some (h, mi, sec) else none

/-- Model of `datetime.fromisoformat` on the subset described above. -/
def fromisoformat (s : String) : Option DT := do
  let (y, r1) ← parse4 s.data
  let r2 ← expectChar '-' r1
  let (mo, r3) ← parse2 r2
  let r4 ← expectChar '-' r3
  let (d, r5) ← parse2 r4
  if 1 ≤ y && 1 ≤ mo && mo ≤ 12 && 1 ≤ d && d ≤ daysInMonth y mo then
    match r5 with
    | [] => some ⟨y, mo, d, 0, 0, 0⟩
    | _ :: timeChars => do
      let (h, mi, sec) ← parseTimePart timeChars
      some ⟨y, mo, d, h, mi, sec⟩
  else none

/-- Python `s.replace("Z", "+00:00")`. -/
def replaceZ (s : String) : String :=
  ⟨s.data.foldr (fun c acc => (if c = 'Z' then "+00:00".data else [c]) ++ acc) []⟩

/-- Zero-padded decimal digit extraction: the digit of `n / 10^k`. -/
def dc (n : Nat) : Char := Char.ofNat (48 + n % 10)

/-- `strftime("%Y-%m-%dT%H:%M:%SZ")` on the parsed fields. -/
def formatUtc (t : DT) : String :=
  ⟨[dc (t.year / 1000), dc (t.year / 100), dc (t.year / 10), dc t.year, '-',
    dc (t.month / 10), dc t.month, '-', dc (t.day / 10), dc t.day, 'T',
    dc (t.hour / 10), dc t.hour, ':', dc (t.minute / 10), dc t.minute, ':',
    dc (t.second / 10), dc t.second, 'Z']⟩

/-- `norm_iso`: `None` for a missing or falsy value, otherwise parse after
`Z`-replacement and re-render; any parse failure yields `None` (the
`except Exception: return None` branch). -/
def norm_iso (v : Option String) : Option String :=
  match v with
  | none => none
  | some s =>
    if s = "" then none
    else (fromisoformat (replaceZ s)).map formatUtc

/-- The output shape promised for resolved timestamps: a 20-character
`YYYY-MM-DDTHH:MM:SSZ` instant (second precision, `Z`-suffixed). -/
def isUtcSecondIso (s : String) : Bool :=
  match s.data with
  | [y1, y2, y3, y4, c1, m1, m2, c2, d1, d2, c3, h1, h2, c4, n1, n2, c5, s1, s2, c6] =>
    y1.isDigit && y2.isDigit && y3.isDigit && y4.isDigit && c1 = '-' &&
    m1.isDigit && m2.isDigit && c2 = '-' && d1.isDigit && d2.isDigit &&
    c3 = 'T' && h1.isDigit && h2.isDigit && c4 = ':' && n1.isDigit &&
    n2.isDigit && c5 = ':' && s1.isDigit && s2.isDigit && c6 = 'Z'
  | _ => false

/-! ### Receipt normalisation (`parse_woleet_receipt`)

JSON values are modelled by the fields the function reads.  Python
truthiness drives every `x or y` chain: a missing key and an empty string
(resp. the number zero, an empty list) are falsy. -/

/-- Python `a or b` on optional strings (empty string falsy). -/
def orS (a b : Option String) : Option String :=
  match a with
  | some s => if s = "" then b else some s
  | none => b

/-- Python `a or b` on optional integers (zero falsy). -/
def orZ (a b : Option Int) : Option Int :=
  match a with
  | some n => if n = 0 then b else some n
  | none => b

/-- Python `a or b` on optional anchor lists (empty list falsy). -/
def orList {α : Type} (a b : Option (List α)) : Option (List α) :=
  match a with
  | some l => if l.isEmpty then b else some l
  | none => b

/-- Normalise a result of an `or` chain by the trailing `or None`:
an empty string collapses to `none`. -/
def truthyOpt (a : Option String) : Option String :=
  match a with
  | some s => if s = "" then none else some s
  | none => none

/-- One entry of a receipt's anchor list, with exactly the keys
`parse_woleet_receipt` reads.  A JSON string value is `some`; a missing key
is `none`. -/
structure JsonAnchor where
  type : Option String
  txId : Option String
  txid : Option String
  blockHeight : Option Int
  time : Option String
  timestamp : Option String
  confirmedAt : Option String
deriving DecidableEq

/-- A raw receipt record, restricted to the keys the normaliser reads.  A
single anchor object under `anchor`/`anchors` is modelled as the one-element
list the code wraps it into (`if isinstance(anchors, dict): anchors =
[anchors]`). -/
structure ReceiptData where
  id : Option String
  proof_id : Option String
  proofId : Option String
  targetHash : Option String
  hash : Option String
  anchors : Option (List JsonAnchor)
  anchor : Option (List JsonAnchor)
  txid : Option String
  txId : Option String
  blockTime : Option String
  anchoredOn : Option String
  created : Option String
  receiptUrl : Option String
  url : Option String
deriving DecidableEq

/-- `data.get("anchors") or data.get("anchor") or []`. -/
def anchorsOf (d : ReceiptData) : List JsonAnchor :=
  (orList d.anchors d.anchor).getD []

/-- Membership of the entry's lower-cased type tag in
`("btc", "bitcoin", "opreturn", "op-return", "op_return")`. -/
def qualifies (a : JsonAnchor) : Bool :=
  let t := strLower (a.type.getD "")
  t = "btc" || t = "bitcoin" || t = "opreturn" || t = "op-return" || t = "op_return"

/-- The `for a in anchors` loop: each qualifying entry updates txid, block
height and block time through a truthiness-guarded `or` chain. -/
def anchorScan (l : List JsonAnchor) : Option String × Option Int × Option String :=
  l.foldl
    (fun acc a =>
      if qualifies a then
        (orS a.txId (orS a.txid acc.1),
         orZ a.blockHeight acc.2.1,
         orS a.time (orS a.timestamp (orS a.confirmedAt acc.2.2)))
      else acc)
    (none, none, none)

/-- The canonical receipt shape returned by `parse_woleet_receipt`. -/
structure WoleetInfo where
  proof_id : Option String
  sha256 : Option String
  txid : Option String
  block_height : Option Int
  anchored_utc : Option String
  link : Option String
deriving DecidableEq

/-- `parse_woleet_receipt`, field for field. -/
def parse_woleet_receipt (d : ReceiptData) : WoleetInfo :=
  let proof_id := orS d.id (orS d.proof_id d.proofId)
  let target := (truthyOpt (orS d.targetHash d.hash)).map strLower
  let scan := anchorScan (anchorsOf d)
  let txid := (truthyOpt (orS scan.1 (orS d.txid d.txId))).map strLower
  let anchored_utc :=
    orS (norm_iso scan.2.2)
      (orS (norm_iso d.blockTime) (orS (norm_iso d.anchoredOn) (norm_iso d.created)))
  let link := truthyOpt (orS d.receiptUrl d.url)
  { proof_id := proof_id
    sha256 := target
    txid := txid
    block_height := scan.2.1
    anchored_utc := anchored_utc
    link := link }

/-! ### Documents, receipts on disk, and the matcher -/

/-- A canonical document file of a group.  `hash` is the external digest
capability `sha256_file` applied to the file (a lowercase hex string by the
`hexdigest` contract); `mtime`, `size`, `mimeGuess` and `relPath` are the
filesystem attributes main reads. -/
structure DocumentFile where
  stem : String
  name : String
  relPath : String
  hash : String
  mtime : Nat
  size : Nat
  mimeGuess : Option String
deriving DecidableEq

/-- A receipt file: its filename stem and its parsed JSON content (`none`
models an unreadable record, which main warns about and skips). -/
structure ReceiptFile where
  stem : String
  data : Option ReceiptData
deriving DecidableEq

/-- `base_of`: strip a case-insensitive trailing `attestation`/`receipt`
token with an optional leading underscore
(`re.sub(r"(?i)(?:_)?(attestation|receipt)$", "", stem)`; the leftmost match
removes the longest such suffix). -/
def base_of (stem : String) : String :=
  let low := (strLower stem).data
  if "_attestation".data.isSuffixOf low then ⟨stem.data.take (stem.data.length - 12)⟩
  else if "attestation".data.isSuffixOf low then ⟨stem.data.take (stem.data.length - 11)⟩
  else if "_receipt".data.isSuffixOf low then ⟨stem.data.take (stem.data.length - 8)⟩
  else if "receipt".data.isSuffixOf low then ⟨stem.data.take (stem.data.length - 7)⟩
  else stem

/-- A character of the class `[a-f0-9]` with `re.I`. -/
def isHexTargetChar (c : Char) : Bool :=
  c.isDigit || ('a' ≤ c && c ≤ 'f') || ('A' ≤ c && c ≤ 'F')

/-- `HEX64.match(s)` for `HEX64 = re.compile(r"^[a-f0-9]{64}$", re.I)`:
64 hex characters, optionally followed by one trailing newline (which `$`
tolerates). -/
def HEX64match (s : String) : Bool :=
  let l := s.data
  (l.take 64).length = 64 && (l.take 64).all isHexTargetChar &&
    (l.drop 64 = [] || l.drop 64 = ['\n'])

/-- The guard `target and HEX64.match(target)`: the declared hash when it is
truthy and well-formed, else nothing. -/
def usableTarget (t : Option String) : Option String :=
  match t with
  | some s => if s ≠ "" && HEX64match s then some s else none
  | none => none

/-- The per-group name index `pdf_by_base`: the canonical documents whose
lower-cased stripped stem equals the key, in list order. -/
def pdfByBase (pdfs : List DocumentFile) (b : String) : List DocumentFile :=
  pdfs.filter (fun p => strLower (base_of p.stem) = b)

/-- The per-group hash index `pdf_index`: a dict built in list order, so a
later document with the same digest overwrites an earlier one. -/
def pdfIndexLookup (pdfs : List DocumentFile) (h : String) : Option DocumentFile :=
  pdfs.foldl (fun acc p => if p.hash = h then some p else acc) none

/-- The multi-candidate tie-break
`sorted(candidates, key=lambda p: (p.stat().st_mtime, p.name))[0]`: the first
list element that is minimal under (mtime, name). -/
def tieBreak (cs : List DocumentFile) : Option DocumentFile :=
  cs.foldl
    (fun acc c =>
      match acc with
      | none => some c
      | some b =>
        if c.mtime < b.mtime || (c.mtime = b.mtime && c.name < b.name) then some c
        else some b)
    none

/-- The matcher of `main` (name first, hash refinement among several name
candidates, hash-index fallback when the name finds nothing). -/
def selectPdf (pdfs : List DocumentFile) (jstem : String) (target : Option String) :
    Option DocumentFile :=
  let baseJson := strLower (base_of jstem)
  let candidates := pdfByBase pdfs baseJson
  match candidates with
  | [] =>
    match usableTarget target with
    | some t => pdfIndexLookup pdfs t
    | none => none
  | [c] => some c
  | cs =>
    let byHash :=
      match usableTarget target with
      | some t => cs.find? (fun c => strLower c.hash = t)
      | none => none
    match byHash with
    | some c => some c
    | none => tieBreak cs

/-! ### Record assembly and per-receipt processing -/

/-- `re.sub(r"\.pdf$", "", pdf.name, flags=re.I)`. -/
def stripPdfExt (name : String) : String :=
  if ".pdf".data.isSuffixOf (strLower name).data then
    ⟨name.data.take (name.data.length - 4)⟩
  else name

/-- Python `needle in haystack` on character lists: `needle` occurs as a
contiguous run of `haystack`. -/
def listInfix (needle : List Char) : List Char → Bool
  | [] => needle.isEmpty
  | c :: rest => needle.isPrefixOf (c :: rest) || listInfix needle rest

/-- `pick_attestation_for`: the first attestation whose lower-cased name
contains the document's extension-stripped lower-cased name, or the word
`attestation` or `receipt`. -/
def pick_attestation_for (pdfName : String) (atts : List DocumentFile) :
    Option DocumentFile :=
  let pref := strLower (stripPdfExt pdfName)
  atts.find? (fun a =>
    let low := (strLower a.name).data
    listInfix pref.data low || listInfix "attestation".data low ||
      listInfix "receipt".data low)

/-- `build_slug_version`: version from the document name, else from the
folder label, else the fixed default `v1-0`; the composite slug is
`<base_slug>_<version>`.  (The `anchored_utc` argument is carried but unused,
as in the source.) -/
def build_slug_version (base_slug pdf_name folder_label : String)
    (anchored_utc : Option String) : String :=
  let version0 := orS (parse_version_from_name pdf_name) (parse_version_from_name folder_label)
  let version := match version0 with
    | some v => if v = "" then "v1-0" else v
    | none => "v1-0"
  let _ := anchored_utc
  base_slug ++ "_" ++ version

/-- `slug_version.split("_", 1)[1] if "_" in slug_version else "v1-0"`. -/
def versionPart (s : String) : String :=
  match s.data.dropWhile (· ≠ '_') with
  | [] => "v1-0"
  | _ :: rest => ⟨rest⟩

/-- The `document` block of `proof.json`. -/
structure DocBlock where
  title : String
  slug : String
  version : String
  filename : String
  mimetype : String
  size_bytes : Nat
  sha256 : String
  canonical_uri : Option String
deriving DecidableEq

/-- The `anchoring` block of `proof.json`. -/
structure AnchoringBlock where
  anchor_network : String
  txid : Option String
  block_height : Option Int
  block_time_utc : Option String
  op_return : Option String
deriving DecidableEq

/-- The `woleet` block of `proof.json`. -/
structure WoleetBlock where
  proof_id : Option String
  link : Option String
deriving DecidableEq

/-- The `dates` block of `proof.json`. -/
structure DatesBlock where
  created_utc : Option String
  anchored_utc : Option String
  published_utc : Option String
deriving DecidableEq

/-- The assembled `proof.json` record (the authorship block is the static
configuration `author/copyright/license` and carries no input data). -/
structure ProofRecord where
  schema_version : String
  document : DocBlock
  anchoring : AnchoringBlock
  woleet : WoleetBlock
  dates : DatesBlock
  notes : String
deriving DecidableEq

/-- One `mapping.csv` row. -/
structure Row where
  slug : String
  filename : String
  sha256 : String
  bitcoin_txid : String
  woleet_proof_id : String
  anchored_utc : String
  canonical_uri : String
  title : String
  version : String
  mimetype : String
  size_bytes : Nat
deriving DecidableEq

/-- One `index.jsonl` line. -/
structure IndexLine where
  slug : String
  filename : String
  sha256 : String
  bitcoin_txid : String
  woleet_proof_id : String
  anchored_utc : String
deriving DecidableEq

/-- Everything main derives for one successfully matched receipt. -/
structure PerReceipt where
  record : ProofRecord
  row : Row
  indexLine : IndexLine
  slugVersion : String
  pdf : DocumentFile
  attest : Option DocumentFile
  warnedMismatch : Bool
deriving DecidableEq

/-- The per-receipt body of `main`'s inner loop: parse the JSON (skip when
unreadable), normalise, match, warn on a well-formed declared hash differing
from the recomputed one, resolve the version and assemble the record, the
mapping row and the index line. -/
def processReceipt (label base_slug : String) (pdfs atts : List DocumentFile)
    (j : ReceiptFile) : Option PerReceipt :=
  match j.data with
  | none => none
  | some jd =>
    let info := parse_woleet_receipt jd
    let target := info.sha256
    match selectPdf pdfs j.stem target with
    | none => none
    | some pdf =>
      let mimetype := pdf.mimeGuess.getD "application/pdf"
      let calc_sha := pdf.hash
      let warned :=
        match usableTarget target with
        | some t => decide (calc_sha ≠ t)
        | none => false
      let slug_version := build_slug_version base_slug pdf.name label info.anchored_utc
      let version := versionPart slug_version
      let att := pick_attestation_for pdf.name atts
      some
        { record :=
            { schema_version := "1.0"
              document :=
                { title := label, slug := base_slug, version := version,
                  filename := pdf.relPath, mimetype := mimetype,
                  size_bytes := pdf.size, sha256 := calc_sha, canonical_uri := none }
              anchoring :=
                { anchor_network := "bitcoin-mainnet", txid := info.txid,
                  block_height := info.block_height,
                  block_time_utc := info.anchored_utc, op_return := none }
              woleet := { proof_id := info.proof_id, link := info.link }
              dates :=
                { created_utc := none, anchored_utc := info.anchored_utc,
                  published_utc := none }
              notes := "Import depuis stamped/ ; reçu = " ++ j.stem ++ ".json" }
          row :=
            { slug := slug_version, filename := pdf.relPath, sha256 := calc_sha,
              bitcoin_txid := info.txid.getD "",
              woleet_proof_id := info.proof_id.getD "",
              anchored_utc := info.anchored_utc.getD "", canonical_uri := "",
              title := label, version := version, mimetype := mimetype,
              size_bytes := pdf.size }
          indexLine :=
            { slug := slug_version, filename := pdf.relPath, sha256 := calc_sha,
              bitcoin_txid := info.txid.getD "",
              woleet_proof_id := info.proof_id.getD "",
              anchored_utc := info.anchored_utc.getD "" }
          slugVersion := slug_version
          pdf := pdf
          attest := att
          warnedMismatch := warned }

/-- One `stamped/` subdirectory after `collect_folder`'s classification:
label and the four file lists (receipt JSONs, canonical PDFs, attestation
PDFs, screenshots), each in sorted directory order. -/
structure StampedGroup where
  label : String
  jsons : List ReceiptFile
  pdfCanons : List DocumentFile
  attestations : List DocumentFile
  screenshots : List DocumentFile
deriving DecidableEq

/-- The per-group part of `main`: skip a group missing receipts or canonical
documents, else derive the base slug from the version-stripped label and
process every receipt. -/
def processGroup (g : StampedGroup) : List PerReceipt :=
  if g.jsons.isEmpty || g.pdfCanons.isEmpty then []
  else
    let base_slug := slugify (stripVersionSuffix g.label)
    g.jsons.filterMap (processReceipt g.label base_slug g.pdfCanons g.attestations)

/-! ### Run-level control flow and filesystem effects

Filesystem mutation is modelled two ways: as an ordered trace of effect
descriptors (who would write where), used for the run-level dry-run claims,
and as a path-to-content map transformer, used for the create-only claim
about annex copies.  Paths are (directory, filename) pairs. -/

/-- One filesystem mutation the importer can perform. -/
inductive FsEff where
  | mkdir (dir : String)
  | writeFile (dir name : String)
  | copyIfAbsent (dir name : String)
deriving DecidableEq

/-- The effect trace of `write_proof_set` for one record: `ensure_dir`, the
`proof.json` and `checksums.txt` writes, then the create-only annex copies
(receipt JSON, optional attestation PDF, first screenshot if any).  Each
helper checks the dry flag itself, as in the source. -/
def write_proof_set_eff (outdir : String) (att : Option DocumentFile)
    (scrs : List DocumentFile) (dry : Bool) : List FsEff :=
  (if dry then [] else [FsEff.mkdir outdir]) ++
  (if dry then [] else [FsEff.writeFile outdir "proof.json"]) ++
  (if dry then [] else [FsEff.writeFile outdir "checksums.txt"]) ++
  (if dry then [] else [FsEff.copyIfAbsent outdir "woleet_receipt.json"]) ++
  (match att with
   | some _ => if dry then [] else [FsEff.copyIfAbsent outdir "woleet_receipt.pdf"]
   | none => []) ++
  (match scrs.head? with
   | some s => if dry then [] else [FsEff.copyIfAbsent outdir s.name]
   | none => [])

/-- The effect trace of one group: one `write_proof_set` per assembled
record, in receipt order. -/
def processGroupEff (dry : Bool) (g : StampedGroup) : List FsEff :=
  if g.jsons.isEmpty || g.pdfCanons.isEmpty then []
  else
    let base_slug := slugify (stripVersionSuffix g.label)
    (g.jsons.map (fun j =>
      match processReceipt g.label base_slug g.pdfCanons g.attestations j with
      | none => []
      | some pr =>
        write_proof_set_eff ("proofs/by-doc/" ++ pr.slugVersion) pr.attest
          g.screenshots dry)).flatten

/-- The command-line switches main reads. -/
structure Config where
  symlink : Bool
  dryRun : Bool
  verbose : Bool
deriving DecidableEq

/-- A run's input: whether the `stamped/` root exists, and its
subdirectories (already classified, sorted by lower-cased name as main
does). -/
structure RunInput where
  stampedExists : Bool
  groups : List StampedGroup
deriving DecidableEq

/-- A run's observable outcome: the fatal early exit, the process exit code,
the assembled records with the two in-memory aggregates, and the ordered
filesystem-effect trace. -/
structure RunResult where
  fatal : Bool
  exitCode : Nat
  recs : List PerReceipt
  rows : List Row
  indexLines : List IndexLine
  effects : List FsEff
deriving DecidableEq

/-- `main`: a missing `stamped/` directory exits with status 1 before
touching the filesystem; otherwise every group is processed, the two
aggregates are written when at least one row exists and the run is not dry,
and the script falls off the end of `main` with exit status 0. -/
def runImport (inp : RunInput) (cfg : Config) : RunResult :=
  if inp.stampedExists = false then
    { fatal := true, exitCode := 1, recs := [], rows := [], indexLines := [],
      effects := [] }
  else
    let pre : List FsEff :=
      if cfg.dryRun then [] else [FsEff.mkdir "proofs", FsEff.mkdir "proofs/by-doc"]
    let recs := (inp.groups.map processGroup).flatten
    let finalWrites : List FsEff :=
      if recs.isEmpty then []
      else if cfg.dryRun then []
      else [FsEff.writeFile "proofs" "mapping.csv", FsEff.writeFile "proofs" "index.jsonl"]
    { fatal := false
      exitCode := 0
      recs := recs
      rows := recs.map (·.row)
      indexLines := recs.map (·.indexLine)
      effects := pre ++ (inp.groups.map (processGroupEff cfg.dryRun)).flatten ++ finalWrites }

/-! ### Content-level filesystem semantics for the annex copies -/

/-- A filesystem: contents indexed by (directory, filename). -/
def FS : Type := String × String → Option String

/-- `Path.write_text` (used for `proof.json` and `checksums.txt`): an
unconditional overwrite, skipped entirely when dry. -/
def writeFileFs (fs : FS) (p : String × String) (content : String) (dry : Bool) : FS :=
  if dry then fs
  else fun q => if q = p then some content else fs q

/-- `copy_or_link`: nothing when dry; nothing when the destination already
exists (`if dst.exists(): return`, and the symlink branch passes on
`FileExistsError`); otherwise the destination comes to hold the source's
content (a symlink is viewed through its target's content). -/
def copy_or_link_fs (fs : FS) (srcContent : String) (dst : String × String)
    (dry : Bool) : FS :=
  if dry then fs
  else if (fs dst).isSome then fs
  else fun q => if q = dst then some srcContent else fs q

/-- `write_proof_set` as a filesystem transformer: overwrite `proof.json`
and `checksums.txt`, then create-only copies of the receipt JSON, the
optional attestation PDF (as `woleet_receipt.pdf`) and the optional first
screenshot (under its own name). -/
def write_proof_set_fs (fs : FS) (outdir : String)
    (proofJson checks receiptContent : String) (att : Option String)
    (scr : Option (String × String)) (dry : Bool) : FS :=
  let fs1 := writeFileFs fs (outdir, "proof.json") proofJson dry
  let fs2 := writeFileFs fs1 (outdir, "checksums.txt") checks dry
  let fs3 := copy_or_link_fs fs2 receiptContent (outdir, "woleet_receipt.json") dry
  let fs4 :=
    match att with
    | some a => copy_or_link_fs fs3 a (outdir, "woleet_receipt.pdf") dry
    | none => fs3
  match scr with
  | some nc => copy_or_link_fs fs4 nc.2 (outdir, nc.1) dry
  | none => fs4

/-- The screenshot classification of `collect_folder`: extension `.png`,
`.jpg` or `.jpeg` (lower-cased). -/
def hasImageExt (name : String) : Bool :=
  let low := (strLower name).data
  ".png".data.isSuffixOf low || ".jpg".data.isSuffixOf low ||
    ".jpeg".data.isSuffixOf low

/-! ### The PDF-footer extraction script (`extract_proofs_from_pdfs.py`)

Text extraction from the PDF (`PyPDF2`) is an external capability; the
extracted footer text is an input.  `RE_HEX64 = r"\b[a-f0-9]{64}\b"`:
a 64-character hex match bounded by word boundaries is exactly a maximal run
of word characters of length 64 whose characters are all hexadecimal, so
`findall` lists those runs left to right.  The `RE_UUID`/`RE_ISO` search
results are carried as inputs of the assembly step. -/

/-- Python `\w` (ASCII view). -/
def isWordChar (c : Char) : Bool := c.isAlphanum || c = '_'

theorem dropWhile_length_le (p : Char → Bool) (l : List Char) :
    (l.dropWhile p).length ≤ l.length := by
  induction l with
  | nil => simp [List.dropWhile]
  | cons c rest ih =>
    simp only [List.dropWhile]
    split
    · exact Nat.le_succ_of_le ih
    · simp

/-- The maximal runs of word characters of a text, left to right.  The fuel
argument only makes the recursion structural; every step consumes at least
one character, so fuel equal to the list length (as `wordRuns` passes)
never runs out. -/
def wordRunsF : Nat → List Char → List (List Char)
  | 0, _ => []
  | _ + 1, [] => []
  | fuel + 1, c :: rest =>
    if isWordChar c then
      (c :: rest.takeWhile isWordChar) :: wordRunsF fuel (rest.dropWhile isWordChar)
    else wordRunsF fuel rest

/-- The maximal runs of word characters of a text, left to right. -/
def wordRuns (l : List Char) : List (List Char) := wordRunsF l.length l

/-- `RE_HEX64.findall(text)`. -/
def findHex64 (text : String) : List String :=
  ((wordRuns text.data).filter
    (fun r => r.length = 64 && r.all isHexTargetChar)).map (fun r => ⟨r⟩)

/-- The footer hash of `parse_proof`: the first 64-hex match, lower-cased. -/
def parse_proof_sha (text : String) : Option String :=
  (findHex64 text).head?.map strLower

/-- The footer transaction id of `parse_proof`: the first later 64-hex match
that differs (lower-cased) from the footer hash. -/
def parse_proof_txid (text : String) : Option String :=
  match findHex64 text with
  | [] => none
  | h :: rest =>
    let sha := strLower h
    (rest.find? (fun x => strLower x ≠ sha)).map strLower

/-- A published PDF under `docs/`, with its external digest and filesystem
attributes. -/
structure PdfFile where
  stem : String
  relPath : String
  hash : String
  size : Nat
  mimeGuess : Option String
deriving DecidableEq

/-- The `document` block written by the extraction script. -/
structure ExtractDoc where
  title : String
  slug : String
  filename : String
  mimetype : String
  size_bytes : Nat
  sha256 : String
  canonical_uri : Option String
  version : Option String
deriving DecidableEq

/-- The record the extraction script writes for one PDF. -/
structure ExtractRecord where
  document : ExtractDoc
  txid : Option String
  block_time_utc : Option String
  proof_id : Option String
  anchored_utc : Option String
deriving DecidableEq

/-- The per-PDF body of the extraction script's `main` (lines 87–150):
document metadata from the file itself, `sha256` always the recomputed
digest, and a warning exactly when the footer declared a differing hash.
`uuid` and `iso` are the `RE_UUID`/`RE_ISO` search results. -/
def extract_main_step (pdf : PdfFile) (text : String) (uuid iso : Option String) :
    ExtractRecord × Bool :=
  let calc_sha := pdf.hash
  let shaFooter := parse_proof_sha text
  let warned :=
    match shaFooter with
    | some s => decide (s ≠ "") && decide (s ≠ calc_sha)
    | none => false
  ({ document :=
      { title := pdf.stem, slug := slugify pdf.stem, filename := pdf.relPath,
        mimetype := pdf.mimeGuess.getD "application/pdf",
        size_bytes := pdf.size, sha256 := calc_sha, canonical_uri := none,
        version := none }
     txid := parse_proof_txid text
     block_time_utc := iso
     proof_id := uuid
     anchored_utc := iso }, warned)

/-- The spec-side description of a priority chain: the first present value. -/
def firstSome : List (Option String) → Option String
  | [] => none
  | x :: rest =>
    match x with
    | some s => some s
    | none => firstSome rest

/-! ### Concrete fixtures used by witnesses and counterexamples -/

/-- A 64-hex digest value. -/
def hashA : String := ⟨List.replicate 64 'a'⟩

/-- Another 64-hex digest value. -/
def hashB : String := ⟨List.replicate 64 'b'⟩

/-- Document `A.pdf` of the two-document example. -/
def docA : DocumentFile :=
  ⟨"A", "A.pdf", "stamped/Report_v2/A.pdf", hashA, 0, 10, some "application/pdf"⟩

/-- Document `B.pdf` of the two-document example. -/
def docB : DocumentFile :=
  ⟨"B", "B.pdf", "stamped/Report_v2/B.pdf", hashB, 1, 11, some "application/pdf"⟩

/-- A document stem `Report` with digest `hashA`. -/
def docA2 : DocumentFile :=
  ⟨"Report", "Report.pdf", "stamped/R/Report.pdf", hashA, 5, 10, some "application/pdf"⟩

/-- A document stem `REPORT` (same lower-cased base as `Report`) with digest
`hashB`. -/
def docB2 : DocumentFile :=
  ⟨"REPORT", "REPORT.pdf", "stamped/R/REPORT.pdf", hashB, 6, 11, some "application/pdf"⟩

/-- A lone document whose stem is `bar`. -/
def docBar : DocumentFile :=
  ⟨"bar", "bar.pdf", "stamped/G/bar.pdf", hashA, 0, 10, some "application/pdf"⟩

/-- A receipt record with every key absent. -/
def emptyReceiptData : ReceiptData :=
  ⟨none, none, none, none, none, none, none, none, none, none, none, none, none, none⟩

/-- A receipt declaring document B's digest as its target hash. -/
def receiptB : ReceiptData := { emptyReceiptData with targetHash := some hashB }

/-- First anchor entry of the two-anchor receipt (type `btc`). -/
def anchor1 : JsonAnchor :=
  ⟨some "btc", some "aa11", none, some 100, some "2020-01-01T00:00:00Z", none, none⟩

/-- Second anchor entry of the two-anchor receipt (type `bitcoin`). -/
def anchor2 : JsonAnchor :=
  ⟨some "bitcoin", some "bb22", none, some 200, some "2021-01-01T00:00:00Z", none, none⟩

/-- A receipt whose anchor list has two qualifying entries. -/
def receiptTwoAnchors : ReceiptData :=
  { emptyReceiptData with anchors := some [anchor1, anchor2] }

/-- The group of spec Example 2: label `Report_v2`, documents `A.pdf` and
`B.pdf`, one receipt declaring B's hash. -/
def groupC6 : StampedGroup := ⟨"Report_v2", [⟨"r", some receiptB⟩], [docA, docB], [], []⟩

/-- A group with exactly one document (`bar.pdf`) and one receipt whose stem
(`foo`) shares no base name with it and declares no hash. -/
def groupC3 : StampedGroup := ⟨"G", [⟨"foo", some emptyReceiptData⟩], [docBar], [], []⟩

/-- A published PDF handled by the extraction script. -/
def pdfDoc : PdfFile := ⟨"Doc", "docs/Doc.pdf", hashA, 20, some "application/pdf"⟩

/-- Footer text whose only 64-hex run is `hashB`. -/
def footerText : String := "sha " ++ hashB ++ " end"

/-- A filesystem with preexisting annex outputs under directory `o`. -/
def fsEx : FS := fun p =>
  if p = ("o", "woleet_receipt.json") then some "old0"
  else if p = ("o", "woleet_receipt.pdf") then some "old1"
  else if p = ("o", "shot.png") then some "old2"
  else none

/-- A receipt with a parseable `created` field only. -/
def receiptCreated : ReceiptData :=
  { emptyReceiptData with created := some "2025-01-02T03:04:05Z" }

/-! ### Helper lemmas -/

theorem digit_isDigit (m : Nat) (h : m < 10) : (Char.ofNat (48 + m)).isDigit = true := by
  interval_cases m <;> decide

theorem dc_isDigit (n : Nat) : (dc n).isDigit = true :=
  digit_isDigit (n % 10) (Nat.mod_lt _ (by norm_num))

theorem isUtcSecondIso_formatUtc (t : DT) : isUtcSecondIso (formatUtc t) = true := by
  simp [isUtcSecondIso, formatUtc, dc_isDigit]

theorem norm_iso_shape (v : Option String) (s : String) (h : norm_iso v = some s) :
    isUtcSecondIso s = true := by
  cases v with
  | none => exact absurd h (by simp [norm_iso])
  | some str =>
    simp only [norm_iso] at h
    split at h
    · exact absurd h (by simp)
    · cases hf : fromisoformat (replaceZ str) with
      | none => rw [hf] at h; exact absurd h (by simp)
      | some t =>
        rw [hf] at h
        simp only [Option.map_some'] at h
        obtain rfl : formatUtc t = s := by injection h
        exact isUtcSecondIso_formatUtc t

theorem norm_iso_ne_empty (v : Option String) (s : String) (h : norm_iso v = some s) :
    s ≠ "" := by
  intro he
  subst he
  have := norm_iso_shape v "" h
  exact absurd this (by decide)

theorem matchVToken_nonempty {l t : List Char} (h : matchVToken l = some t) : t ≠ [] := by
  cases l with
  | nil => exact absurd h (by simp [matchVToken])
  | cons c rest =>
    simp only [matchVToken] at h
    split at h
    · split at h
      · exact absurd h (by simp)
      · obtain rfl : c :: ((takeDigits rest).1 ++ (takeDotGroups (takeDigits rest).2).1) = t := by
          injection h
        simp
    · exact absurd h (by simp)

theorem searchVTokenRest_nonempty {l t : List Char} (h : searchVTokenRest l = some t) :
    t ≠ [] := by
  induction l with
  | nil => exact absurd h (by simp [searchVTokenRest])
  | cons c rest ih =>
    simp only [searchVTokenRest] at h
    split at h
    · cases hm : matchVToken rest with
      | some t2 => rw [hm] at h; obtain rfl : t2 = t := by injection h
                   exact matchVToken_nonempty hm
      | none => rw [hm] at h; exact ih h
    · exact ih h

theorem parse_version_nonempty {name : String} {v : String}
    (h : parse_version_from_name name = some v) : v ≠ "" := by
  unfold parse_version_from_name at h
  cases hs : searchVToken name.data with
  | none => rw [hs] at h; exact absurd h (by simp)
  | some t =>
    rw [hs] at h
    simp only [Option.map_some'] at h
    have ht : t ≠ [] := by
      unfold searchVToken at hs
      cases hm : matchVToken name.data with
      | some t2 => rw [hm] at hs; obtain rfl : t2 = t := by injection hs
                   exact matchVToken_nonempty hm
      | none => rw [hm] at hs; exact searchVTokenRest_nonempty hs
    obtain rfl : (⟨t.map fun c => let c2 := pyLowerChar c; if c2 = '.' then '-' else c2⟩ : String) = v := by
      injection h
    intro he
    have : (t.map fun c => let c2 := pyLowerChar c; if c2 = '.' then '-' else c2) = [] := by
      have := congrArg String.data he
      simpa using this
    exact ht (List.map_eq_nil_iff.mp this)

theorem orS_eq_some {x y : Option String} {s : String} (h : orS x y = some s) :
    x = some s ∨ y = some s := by
  cases x with
  | none => right; simpa [orS] using h
  | some a =>
    simp only [orS] at h
    split at h
    · right; exact h
    · left; exact h

/-- C5: the resolved version token is taken with priority filename token,
else group-label token, else the fixed default, which is embedded in the
composite slug as the literal `v1-0` (the default "v1.0" lower-cased with
dots replaced by dashes). -/
theorem c5_version_resolution_priority (base_slug name label : String) (a : Option String) :
    (∀ v, parse_version_from_name name = some v →
       build_slug_version base_slug name label a = base_slug ++ "_" ++ v) ∧
    (parse_version_from_name name = none →
       ∀ v, parse_version_from_name label = some v →
         build_slug_version base_slug name label a = base_slug ++ "_" ++ v) ∧
    (parse_version_from_name name = none → parse_version_from_name label = none →
       build_slug_version base_slug name label a = base_slug ++ "_" ++ "v1-0") := by
  refine ⟨?_, ?_, ?_⟩
  · intro v hv
    have hne := parse_version_nonempty hv
    simp [build_slug_version, hv, orS, hne]
  · intro hn v hv
    have hne := parse_version_nonempty hv
    simp [build_slug_version, hn, hv, orS, hne]
  · intro hn hl
    simp [build_slug_version, hn, hl, orS]

/-- Witness for C5: `doc.pdf` and `Report` carry no version token, so the
composite slug ends in the default `v1-0`; `a_v2.pdf` carries `v2`, which
takes priority. -/
theorem c5_witness :
    build_slug_version "report" "doc.pdf" "Report" none = "report" ++ "_" ++ "v1-0" ∧
    build_slug_version "x" "a_v2.pdf" "Report" none = "x" ++ "_" ++ "v2" :=
  ⟨(c5_version_resolution_priority "report" "doc.pdf" "Report" none).2.2
      (by decide) (by decide),
   (c5_version_resolution_priority "x" "a_v2.pdf" "Report" none).1 "v2" (by decide)⟩

/-- C7: anchoring-timestamp resolution is the first-that-parses chain over
the anchor-loop time, the top-level block time, the top-level anchored time
and the top-level created time (null when none parses, and the embedding is
a total function, so no input raises), and every non-null result has the
`YYYY-MM-DDTHH:MM:SSZ` UTC second-precision shape. -/
theorem c7_timestamp_chain (d : ReceiptData) :
    (parse_woleet_receipt d).anchored_utc =
      firstSome [norm_iso (anchorScan (anchorsOf d)).2.2, norm_iso d.blockTime,
        norm_iso d.anchoredOn, norm_iso d.created] ∧
    ∀ s, (parse_woleet_receipt d).anchored_utc = some s → isUtcSecondIso s = true := by
  have hchain : (parse_woleet_receipt d).anchored_utc =
      orS (norm_iso (anchorScan (anchorsOf d)).2.2)
        (orS (norm_iso d.blockTime)
          (orS (norm_iso d.anchoredOn) (norm_iso d.created))) := rfl
  constructor
  · rw [hchain]
    cases h1 : norm_iso (anchorScan (anchorsOf d)).2.2 with
    | some s1 => simp [orS, firstSome, norm_iso_ne_empty _ _ h1]
    | none =>
      cases h2 : norm_iso d.blockTime with
      | some s2 => simp [orS, firstSome, norm_iso_ne_empty _ _ h2]
      | none =>
        cases h3 : norm_iso d.anchoredOn with
        | some s3 => simp [orS, firstSome, norm_iso_ne_empty _ _ h3]
        | none =>
          cases h4 : norm_iso d.created with
          | some s4 => simp [orS, firstSome]
          | none => simp [orS, firstSome]
  · intro s h
    rw [hchain] at h
    rcases orS_eq_some h with h1 | h
    · exact norm_iso_shape _ _ h1
    rcases orS_eq_some h with h2 | h
    · exact norm_iso_shape _ _ h2
    rcases orS_eq_some h with h3 | h4
    · exact norm_iso_shape _ _ h3
    · exact norm_iso_shape _ _ h4

/-- Witness for C7: a receipt with only a `created` field resolves to that
instant, normalised and in the promised shape. -/
theorem c7_witness :
    (parse_woleet_receipt receiptCreated).anchored_utc = some "2025-01-02T03:04:05Z" ∧
    isUtcSecondIso "2025-01-02T03:04:05Z" = true :=
  ⟨by decide, (c7_timestamp_chain receiptCreated).2 "2025-01-02T03:04:05Z" (by decide)⟩

/-- C2 (counterexample): a receipt whose anchor list holds two qualifying
entries resolves txid, block height and time from the second entry, although
the first qualifying entry set all three; the first entry does not win. -/
theorem c2_counterexample :
    qualifies anchor1 = true ∧
    (anchorsOf receiptTwoAnchors).head? = some anchor1 ∧
    anchor1.txId = some "aa11" ∧ anchor1.blockHeight = some 100 ∧
    anchor1.time = some "2020-01-01T00:00:00Z" ∧
    (parse_woleet_receipt receiptTwoAnchors).txid = some "bb22" ∧
    (parse_woleet_receipt receiptTwoAnchors).block_height = some 200 ∧
    (parse_woleet_receipt receiptTwoAnchors).anchored_utc =
      some "2021-01-01T00:00:00Z" ∧
    ("bb22" : String) ≠ "aa11" ∧ (200 : Int) ≠ 100 := by
  refine ⟨rfl, rfl, rfl, rfl, rfl, rfl, rfl, ?_, by decide, by decide⟩
  decide

/-- C2 (amended): appending a qualifying anchor entry makes each of its
truthy txid/height/time fields override the values resolved so far, while
its absent or falsy fields keep the earlier values; appending a
non-qualifying entry changes nothing.  So the last qualifying entry
providing a field wins, not the first. -/
theorem c2_later_anchor_overrides (l : List JsonAnchor) (a : JsonAnchor) :
    (qualifies a = true →
      anchorScan (l ++ [a]) =
        (orS a.txId (orS a.txid (anchorScan l).1),
         orZ a.blockHeight (anchorScan l).2.1,
         orS a.time (orS a.timestamp (orS a.confirmedAt (anchorScan l).2.2)))) ∧
    (qualifies a = false → anchorScan (l ++ [a]) = anchorScan l) := by
  constructor <;> intro h <;> simp [anchorScan, List.foldl_append, h]

/-- Witness for C2 (amended): appending the qualifying `anchor2` after
`anchor1` overrides txid, height and time with `anchor2`'s values. -/
theorem c2_witness :
    anchorScan ([anchor1] ++ [anchor2]) =
      (orS anchor2.txId (orS anchor2.txid (anchorScan [anchor1]).1),
       orZ anchor2.blockHeight (anchorScan [anchor1]).2.1,
       orS anchor2.time (orS anchor2.timestamp
         (orS anchor2.confirmedAt (anchorScan [anchor1]).2.2))) ∧
    anchorScan ([anchor1] ++ [anchor2]) =
      (some "bb22", some 200, some "2021-01-01T00:00:00Z") :=
  ⟨(c2_later_anchor_overrides [anchor1] anchor2).1 (by decide), by decide⟩

/-- C3 (counterexample): a group with exactly one document (`bar.pdf`) and
exactly one receipt (`foo.json`, no declared hash) produces no pairing at
all: the bases differ and there is no hash to fall back on, so the receipt
is unmatched and the group yields no record. -/
theorem c3_counterexample :
    groupC3.pdfCanons.length = 1 ∧ groupC3.jsons.length = 1 ∧
    selectPdf groupC3.pdfCanons "foo" (parse_woleet_receipt emptyReceiptData).sha256 =
      none ∧
    processGroup groupC3 = [] := by
  refine ⟨rfl, rfl, rfl, ?_⟩
  decide

/-- C3 (amended): in a group whose single document shares the receipt's
normalised base name, the matcher always pairs them, whatever the declared
target hash is (absent, malformed, or differing). -/
theorem c3_single_doc_name_match (doc : DocumentFile) (jstem : String)
    (target : Option String)
    (h : strLower (base_of jstem) = strLower (base_of doc.stem)) :
    selectPdf [doc] jstem target = some doc := by
  have hc : pdfByBase [doc] (strLower (base_of jstem)) = [doc] := by
    simp [pdfByBase, h]
  simp only [selectPdf]
  rw [hc]

/-- Witness for C3 (amended): `bar_receipt` strips to base `bar`, so the
lone document `bar.pdf` is selected although the declared hash differs from
the document's digest. -/
theorem c3_witness :
    selectPdf [docBar] "bar_receipt" (some hashB) = some docBar ∧
    docBar.hash ≠ hashB :=
  ⟨c3_single_doc_name_match docBar "bar_receipt" (some hashB) (by decide), by decide⟩

/-- C4 (counterexample): with documents `A.pdf` (hash `hashA`) and `B.pdf`
(hash `hashB`) and a receipt whose stem is `A` declaring target hash
`hashB`, the matcher selects A by name, not B: filename similarity to A
decides against the declared hash. -/
theorem c4_counterexample :
    docA.hash = hashA ∧ docB.hash = hashB ∧ hashA ≠ hashB ∧
    HEX64match hashB = true ∧
    selectPdf [docA, docB] "A" (some hashB) = some docA ∧
    docA ≠ docB := by
  refine ⟨rfl, rfl, by decide, by decide, ?_, by decide⟩
  decide

/-- C4 (amended): the receipt declaring B's hash is paired with B whenever
name matching does not pre-empt the decision: if its base name matches no
document, the hash index resolves to B, and if its base name matches both
documents, the hash refinement selects B.  (When the base name matches
exactly one document, that document is selected by name regardless of the
hash, as the counterexample shows.)  The digest-lowercase hypotheses
reflect the `hexdigest` contract. -/
theorem c4_declared_hash_selects_b (A B : DocumentFile) (jstem t : String)
    (hlB : strLower B.hash = B.hash) (hB : B.hash = t)
    (hlA : strLower A.hash = A.hash) (hA : A.hash ≠ t)
    (husable : usableTarget (some t) = some t) :
    (pdfByBase [A, B] (strLower (base_of jstem)) = [] →
       selectPdf [A, B] jstem (some t) = some B) ∧
    (pdfByBase [A, B] (strLower (base_of jstem)) = [A, B] →
       selectPdf [A, B] jstem (some t) = some B) := by
  constructor <;> intro hc <;> subst hB <;> simp only [selectPdf] <;> rw [hc, husable]
  · simp [pdfIndexLookup]
  · simp [List.find?, hlA, hA, hlB]

/-- Witness for C4 (amended): with base `zzz` (matching nothing) the hash
index selects B; with two same-base documents the hash refinement selects
the one whose digest is declared. -/
theorem c4_witness :
    selectPdf [docA, docB] "zzz" (some hashB) = some docB ∧
    selectPdf [docA2, docB2] "Report" (some hashB) = some docB2 :=
  ⟨(c4_declared_hash_selects_b docA docB "zzz" hashB (by decide) rfl (by decide)
      (by decide) (by decide)).1 (by decide),
   (c4_declared_hash_selects_b docA2 docB2 "Report" hashB (by decide) rfl (by decide)
      (by decide) (by decide)).2 (by decide)⟩

/-- C6 (counterexample): in the group labeled `Report_v2` with documents
`A.pdf` and `B.pdf` and a receipt declaring B's hash, the assembled record's
composite slug is `report_v2` — not `report_v2-0` as claimed. -/
theorem c6_counterexample :
    (processGroup groupC6).map (fun pr => pr.slugVersion) = ["report_v2"] ∧
    (processGroup groupC6).map (fun pr => pr.pdf) = [docB] ∧
    "report_v2" ≠ "report_v2-0" := by
  refine ⟨?_, ?_, by decide⟩ <;> decide

/-- C6 (amended): in a group labeled `Report_v2` holding documents A and
`B.pdf` and one readable receipt that declares B's digest as a well-formed
target hash and whose base name matches neither document, exactly one record
is assembled, matched to B, with composite slug `report_v2` (base slug
`report`, version token `v2` from the group label). -/
theorem c6_report_v2_slug (A B : DocumentFile) (r : ReceiptFile) (jd : ReceiptData)
    (atts scrs : List DocumentFile)
    (hr : r.data = some jd)
    (hBname : B.name = "B.pdf")
    (htgt : (parse_woleet_receipt jd).sha256 = some B.hash)
    (husable : usableTarget (some B.hash) = some B.hash)
    (hnocand : pdfByBase [A, B] (strLower (base_of r.stem)) = []) :
    ∃ pr, processGroup ⟨"Report_v2", [r], [A, B], atts, scrs⟩ = [pr] ∧
      pr.slugVersion = "report_v2" ∧ pr.pdf = B ∧
      pr.record.document.slug = "report" ∧ pr.record.document.version = "v2" := by
  have hsel : selectPdf [A, B] r.stem (some B.hash) = some B := by
    simp only [selectPdf]
    rw [hnocand, husable]
    simp [pdfIndexLookup]
  have hbase : slugify (stripVersionSuffix "Report_v2") = "report" := by decide
  have hbuild : ∀ a, build_slug_version "report" "B.pdf" "Report_v2" a = "report_v2" := by
    intro a; rfl
  have hproc : processReceipt "Report_v2" (slugify (stripVersionSuffix "Report_v2"))
      [A, B] atts r =
      processReceipt "Report_v2" "report" [A, B] atts r := by rw [hbase]
  simp only [processGroup, List.isEmpty_cons, Bool.or_self, Bool.false_eq_true,
    if_false, List.filterMap_cons, List.filterMap_nil]
  rw [hproc]
  simp only [processReceipt]
  rw [hr]
  simp only
  rw [htgt, hsel]
  refine ⟨_, rfl, ?_, rfl, rfl, ?_⟩
  · show build_slug_version "report" B.name "Report_v2"
      (parse_woleet_receipt jd).anchored_utc = "report_v2"
    rw [hBname]
    apply hbuild
  · show versionPart (build_slug_version "report" B.name "Report_v2"
      (parse_woleet_receipt jd).anchored_utc) = "v2"
    rw [hBname, hbuild]
    rfl

/-- Witness for C6 (amended): the concrete Example-2 group. -/
theorem c6_witness :
    ∃ pr, processGroup ⟨"Report_v2", [⟨"r", some receiptB⟩], [docA, docB], [], []⟩ = [pr] ∧
      pr.slugVersion = "report_v2" ∧ pr.pdf = docB ∧
      pr.record.document.slug = "report" ∧ pr.record.document.version = "v2" :=
  c6_report_v2_slug docA docB ⟨"r", some receiptB⟩ receiptB [] []
    rfl rfl (by decide) (by decide) (by decide)

/-- C1: whenever a receipt is readable and the matcher selects a document,
assembly proceeds (even on a hash mismatch), the record's document hash is
the freshly recomputed digest of the matched file, and the mismatch warning
fires exactly when a truthy well-formed declared hash differs from that
digest; and the PDF-extraction script likewise always records the
recomputed digest and warns exactly when a differing footer hash was
found. -/
theorem c1_document_hash_is_computed :
    (∀ (label base_slug : String) (pdfs atts : List DocumentFile) (j : ReceiptFile)
       (jd : ReceiptData) (pdf : DocumentFile),
       j.data = some jd →
       selectPdf pdfs j.stem (parse_woleet_receipt jd).sha256 = some pdf →
       ∃ pr, processReceipt label base_slug pdfs atts j = some pr ∧
         pr.pdf = pdf ∧
         pr.record.document.sha256 = pdf.hash ∧
         pr.row.sha256 = pdf.hash ∧
         pr.indexLine.sha256 = pdf.hash ∧
         (∀ t, usableTarget (parse_woleet_receipt jd).sha256 = some t →
            pr.warnedMismatch = decide (pdf.hash ≠ t))) ∧
    (∀ (pdf : PdfFile) (text : String) (uuid iso : Option String),
       (extract_main_step pdf text uuid iso).1.document.sha256 = pdf.hash ∧
       (∀ s, parse_proof_sha text = some s → s ≠ "" → s ≠ pdf.hash →
          (extract_main_step pdf text uuid iso).2 = true)) := by
  constructor
  · intro label base_slug pdfs atts j jd pdf hj hsel
    simp only [processReceipt]
    rw [hj]
    simp only
    rw [hsel]
    refine ⟨_, rfl, rfl, rfl, rfl, rfl, ?_⟩
    intro t ht
    show (match usableTarget (parse_woleet_receipt jd).sha256 with
          | some t => decide (pdf.hash ≠ t)
          | none => false) = decide (pdf.hash ≠ t)
    rw [ht]
  · intro pdf text uuid iso
    refine ⟨rfl, ?_⟩
    intro s hs hne hdiff
    simp only [extract_main_step]
    rw [hs]
    simp [hne, hdiff]

/-- Witness for C1: a concrete readable receipt declaring B's hash matched
(via the hash index) to document B yields a record whose document hash is
B's digest; and the extraction script on a footer declaring a hash that
differs from the recomputed digest still records the digest and warns. -/
theorem c1_witness :
    (∃ pr, processReceipt "Report_v2" "report" [docA, docB] [] ⟨"r", some receiptB⟩ =
        some pr ∧
      pr.pdf = docB ∧
      pr.record.document.sha256 = docB.hash ∧
      pr.row.sha256 = docB.hash ∧
      pr.indexLine.sha256 = docB.hash ∧
      (∀ t, usableTarget (parse_woleet_receipt receiptB).sha256 = some t →
         pr.warnedMismatch = decide (docB.hash ≠ t))) ∧
    (extract_main_step pdfDoc footerText none none).1.document.sha256 = pdfDoc.hash ∧
    (extract_main_step pdfDoc footerText none none).2 = true :=
  ⟨(c1_document_hash_is_computed).1 "Report_v2" "report" [docA, docB] []
      ⟨"r", some receiptB⟩ receiptB docB rfl (by decide),
   (c1_document_hash_is_computed.2 pdfDoc footerText none none).1,
   (c1_document_hash_is_computed.2 pdfDoc footerText none none).2 hashB
     (by decide) (by decide) (by decide)⟩

/-- C8 (counterexample): with the root present and no groups at all, zero
records are produced, yet the run completes with exit status 0 — the exit
status does not reflect failure as claimed. -/
theorem c8_counterexample :
    (runImport ⟨true, []⟩ ⟨false, false, false⟩).fatal = false ∧
    (runImport ⟨true, []⟩ ⟨false, false, false⟩).recs = [] ∧
    (runImport ⟨true, []⟩ ⟨false, false, false⟩).rows = [] ∧
    (runImport ⟨true, []⟩ ⟨false, false, false⟩).exitCode = 0 :=
  ⟨rfl, rfl, rfl, rfl⟩

/-- C8 (amended): the run halts with exit status 1 and no output exactly
when the root directory is missing; in every other case it runs to
completion and exits with status 0, even when zero records were produced
(that case only emits a warning). -/
theorem c8_exit_status (gs : List StampedGroup) (cfg : Config) :
    (runImport ⟨false, gs⟩ cfg).fatal = true ∧
    (runImport ⟨false, gs⟩ cfg).exitCode = 1 ∧
    (runImport ⟨false, gs⟩ cfg).effects = [] ∧
    (runImport ⟨false, gs⟩ cfg).rows = [] ∧
    (runImport ⟨false, gs⟩ cfg).recs = [] ∧
    (runImport ⟨true, gs⟩ cfg).fatal = false ∧
    (runImport ⟨true, gs⟩ cfg).exitCode = 0 :=
  ⟨rfl, rfl, rfl, rfl, rfl, rfl, rfl⟩

theorem map_flatten_nil {α β : Type} (l : List α) (f : α → List β)
    (h : ∀ x, f x = []) : (l.map f).flatten = [] := by
  induction l with
  | nil => rfl
  | cons a rest ih => simp [h, ih]

theorem write_proof_set_eff_dry (outdir : String) (att : Option DocumentFile)
    (scrs : List DocumentFile) : write_proof_set_eff outdir att scrs true = [] := by
  unfold write_proof_set_eff
  cases att <;> cases hs : scrs.head? <;> simp

theorem processGroupEff_dry (g : StampedGroup) : processGroupEff true g = [] := by
  unfold processGroupEff
  split
  · rfl
  · apply map_flatten_nil
    intro j
    cases hp : processReceipt g.label (slugify (stripVersionSuffix g.label))
        g.pdfCanons g.attestations j <;> simp [hp, write_proof_set_eff_dry]

/-- C9: the dry run computes the same records, mapping rows, index lines,
fatality and exit status as the normal run on the same input, and its
filesystem-effect trace is empty. -/
theorem c9_dry_run_equivalence (inp : RunInput) (sym vb : Bool) :
    (runImport inp ⟨sym, true, vb⟩).recs = (runImport inp ⟨sym, false, vb⟩).recs ∧
    (runImport inp ⟨sym, true, vb⟩).rows = (runImport inp ⟨sym, false, vb⟩).rows ∧
    (runImport inp ⟨sym, true, vb⟩).indexLines =
      (runImport inp ⟨sym, false, vb⟩).indexLines ∧
    (runImport inp ⟨sym, true, vb⟩).fatal = (runImport inp ⟨sym, false, vb⟩).fatal ∧
    (runImport inp ⟨sym, true, vb⟩).exitCode =
      (runImport inp ⟨sym, false, vb⟩).exitCode ∧
    (runImport inp ⟨sym, true, vb⟩).effects = [] := by
  obtain ⟨ex, gs⟩ := inp
  cases ex
  · exact ⟨rfl, rfl, rfl, rfl, rfl, rfl⟩
  · refine ⟨rfl, rfl, rfl, rfl, rfl, ?_⟩
    simp [runImport, map_flatten_nil gs (processGroupEff true) processGroupEff_dry]

theorem writeFileFs_ne (fs : FS) (p q : String × String) (c : String) (h : q ≠ p) :
    writeFileFs fs p c false q = fs q := by
  simp [writeFileFs, h]

theorem copy_or_link_fs_preserves (fs : FS) (sc : String) (dst q : String × String)
    (c : String) (h : fs q = some c) : copy_or_link_fs fs sc dst false q = some c := by
  by_cases hd : (fs dst).isSome
  · simp [copy_or_link_fs, hd, h]
  · simp only [copy_or_link_fs, hd, Bool.false_eq_true, if_false, ite_false]
    by_cases hq : q = dst
    · subst hq
      rw [h] at hd
      simp at hd
    · simp [hq, h]

theorem hasImageExt_ne (n : String) (h : hasImageExt n = true) :
    n ≠ "proof.json" ∧ n ≠ "checksums.txt" := by
  constructor <;> rintro rfl <;> exact absurd h (by decide)

/-- C10: in non-dry mode every annex transfer (receipt JSON, attestation
PDF, screenshot) is create-only: a destination that already exists keeps its
content, whatever the source holds.  (The screenshot's image extension,
guaranteed by `collect_folder`'s classification, keeps it clear of the two
overwritten metadata files.) -/
theorem c10_annex_create_only (fs : FS) (outdir pj cks rc : String)
    (att : Option String) (scr : Option (String × String))
    (hscr : ∀ n c0, scr = some (n, c0) → hasImageExt n = true) :
    (∀ c, fs (outdir, "woleet_receipt.json") = some c →
       write_proof_set_fs fs outdir pj cks rc att scr false
         (outdir, "woleet_receipt.json") = some c) ∧
    (∀ a c, att = some a → fs (outdir, "woleet_receipt.pdf") = some c →
       write_proof_set_fs fs outdir pj cks rc att scr false
         (outdir, "woleet_receipt.pdf") = some c) ∧
    (∀ n c0 c, scr = some (n, c0) → fs (outdir, n) = some c →
       write_proof_set_fs fs outdir pj cks rc att scr false (outdir, n) = some c) := by
  have pres : ∀ (k : String × String) (c : String),
      k ≠ (outdir, "proof.json") → k ≠ (outdir, "checksums.txt") →
      fs k = some c →
      write_proof_set_fs fs outdir pj cks rc att scr false k = some c := by
    intro k c h1 h2 hk
    have base : writeFileFs (writeFileFs fs (outdir, "proof.json") pj false)
        (outdir, "checksums.txt") cks false k = some c := by
      rw [writeFileFs_ne _ _ _ _ h2, writeFileFs_ne _ _ _ _ h1]
      exact hk
    unfold write_proof_set_fs
    cases scr with
    | none =>
      cases att with
      | none => exact copy_or_link_fs_preserves _ _ _ _ _ base
      | some a =>
        exact copy_or_link_fs_preserves _ _ _ _ _
          (copy_or_link_fs_preserves _ _ _ _ _ base)
    | some nc =>
      cases att with
      | none =>
        exact copy_or_link_fs_preserves _ _ _ _ _
          (copy_or_link_fs_preserves _ _ _ _ _ base)
      | some a =>
        exact copy_or_link_fs_preserves _ _ _ _ _
          (copy_or_link_fs_preserves _ _ _ _ _
            (copy_or_link_fs_preserves _ _ _ _ _ base))
  refine ⟨?_, ?_, ?_⟩
  · intro c hc
    exact pres _ _ (by simp) (by simp) hc
  · intro a c _ hc
    exact pres _ _ (by simp) (by simp) hc
  · intro n c0 c hs hc
    obtain ⟨hn1, hn2⟩ := hasImageExt_ne n (hscr n c0 hs)
    exact pres _ _ (by simp [hn1]) (by simp [hn2]) hc

/-- Witness for C10: with all three annex destinations preexisting under
directory `o`, a non-dry `write_proof_set` leaves each of their contents
unchanged. -/
theorem c10_witness :
    write_proof_set_fs fsEx "o" "pj" "ck" "rc" (some "annexA") (some ("shot.png", "sc"))
      false ("o", "woleet_receipt.json") = some "old0" ∧
    write_proof_set_fs fsEx "o" "pj" "ck" "rc" (some "annexA") (some ("shot.png", "sc"))
      false ("o", "woleet_receipt.pdf") = some "old1" ∧
    write_proof_set_fs fsEx "o" "pj" "ck" "rc" (some "annexA") (some ("shot.png", "sc"))
      false ("o", "shot.png") = some "old2" :=
  have hscr : ∀ n c0, (some ("shot.png", "sc") : Option (String × String)) = some (n, c0) →
      hasImageExt n = true := by
    intro n c0 h
    cases h
    decide
  ⟨(c10_annex_create_only fsEx "o" "pj" "ck" "rc" (some "annexA")
      (some ("shot.png", "sc")) hscr).1 "old0" rfl,
   (c10_annex_create_only fsEx "o" "pj" "ck" "rc" (some "annexA")
      (some ("shot.png", "sc")) hscr).2.1 "annexA" "old1" rfl rfl,
   (c10_annex_create_only fsEx "o" "pj" "ck" "rc" (some "annexA")
      (some ("shot.png", "sc")) hscr).2.2 "shot.png" "sc" "old2" rfl rfl⟩
